import Mathlib

/-!
Verification of the NV-center detection pipeline (`detect_nv_centers`) of the
NVision repository against its natural-language specification.

The repository has two variants of the detector:
* `src/gui.py` — the guarded variant (degenerate-input guard, NaN-safe
  statistics, empty-result short circuit);
* `src/main.py` — the strict variant (no guards).

The shallow embedding below models:
* a scan grid as a list of rows of optional reals, `none` standing for a
  missing value (IEEE NaN in the Python code);
* `np.nanmean` / `np.nanstd` / `np.mean` / `np.std` over such grids (a NaN
  result is modelled as `none`);
* `scipy.ndimage.gaussian_filter(..., sigma=1)`: a separable Gaussian
  correlation with kernel radius `int(truncate*sigma+0.5) = 4`, normalized
  weights `exp(-k^2/2)`, boundary mode `reflect`, with NaN values
  propagating to every output cell whose (reflected) kernel window touches
  them — exactly the IEEE behaviour of the floating-point convolution;
* `skimage.feature.peak_local_max(image, min_distance, threshold_abs)` with
  its default arguments: candidate cells are those equal to the maximum of
  their clipped `(2*min_distance+1)`-square window, strictly above the
  threshold, at least `min_distance` away from every border
  (`exclude_border=True`), sorted by descending image value (stable), and
  then greedily thinned so that an accepted peak is at Chebyshev distance
  at least `min_distance` from every previously accepted peak
  (`ensure_spacing` with `p_norm=inf` rejects candidates strictly closer
  than `spacing` to an accepted point);
* `np.interp` of an integer index against `arange(n)` as direct lookup with
  clamping.
-/

open scoped BigOperators

/-- A grid cell: `none` models an IEEE NaN / missing value. -/
abbrev Cell := Option ℝ

/-- A scan grid: a list of rows. The loader guarantees rectangularity. -/
abbrev Grid := List (List Cell)

/-- Cell lookup `g[p.1][p.2]`; out-of-range reads give `none`. -/
def cellValue (g : Grid) (p : ℕ × ℕ) : Cell := (g.getD p.1 []).getD p.2 none

/-- Real value of a cell, defaulting to `0` for missing cells. -/
noncomputable def cellR (g : Grid) (p : ℕ × ℕ) : ℝ := (cellValue g p).getD 0

/-- Number of rows (`numpy` shape `H`). -/
def gridH (g : Grid) : ℕ := g.length

/-- Number of columns (`numpy` shape `W`, the first row's length). -/
def gridW (g : Grid) : ℕ :=
  match g with
  | [] => 0
  | r :: _ => r.length

/-- Total number of elements (`numpy` `size`). -/
def gsize (g : Grid) : ℕ := (g.map List.length).sum

/-- `np.all(np.isnan(scan_counts))`: every element missing (true on empty). -/
def allNaN (g : Grid) : Bool := g.all (fun r => r.all (fun v => v.isNone))

/-- The non-missing values of the grid, in row-major order. -/
def validVals (g : Grid) : List ℝ := g.flatten.filterMap id

/-- `np.nanmean`: mean over non-missing values, NaN (`none`) if there are none. -/
noncomputable def nanmean (g : Grid) : Option ℝ :=
  if (validVals g).length = 0 then none
  else some ((validVals g).sum / (validVals g).length)

/-- `np.nanstd`: population standard deviation over non-missing values,
NaN (`none`) if there are none. -/
noncomputable def nanstd (g : Grid) : Option ℝ :=
  if (validVals g).length = 0 then none
  else some (Real.sqrt ((((validVals g).map
    (fun x => (x - (validVals g).sum / (validVals g).length) ^ 2)).sum) / (validVals g).length))

/-- `np.mean` over the whole grid: NaN (`none`) if the grid is empty or any
element is NaN; otherwise the arithmetic mean of all elements. -/
noncomputable def npMean (g : Grid) : Option ℝ :=
  if g.flatten.length ≠ 0 ∧ g.flatten.all (fun v => v.isSome) = true then
    some ((validVals g).sum / g.flatten.length)
  else none

/-- `np.std` over the whole grid: NaN (`none`) if the grid is empty or any
element is NaN; otherwise the population standard deviation of all elements. -/
noncomputable def npStd (g : Grid) : Option ℝ :=
  if g.flatten.length ≠ 0 ∧ g.flatten.all (fun v => v.isSome) = true then
    some (Real.sqrt ((((validVals g).map
      (fun x => (x - (validVals g).sum / g.flatten.length) ^ 2)).sum) / g.flatten.length))
  else none

/-- Unnormalized Gaussian kernel weight for `sigma = 1`:
`exp(-0.5 * k^2)`, as computed by `scipy.ndimage._gaussian_kernel1d`. -/
noncomputable def gw (k : ℤ) : ℝ := Real.exp (-((k : ℝ) ^ 2) / 2)

/-- Sum of the unnormalized kernel weights over the truncated support
`-4..4` (radius `int(truncate * sigma + 0.5) = 4` for the defaults
`sigma = 1`, `truncate = 4.0`). -/
noncomputable def gnorm : ℝ := ∑ t ∈ Finset.range 9, gw ((t : ℤ) - 4)

/-- Normalized Gaussian kernel weight. -/
noncomputable def gweight (k : ℤ) : ℝ := gw k / gnorm

/-- `scipy` boundary mode `reflect` (`d c b a | a b c d`): maps an arbitrary
integer index into `0..n-1` by reflection about the array edges. -/
def reflectIdx (n : ℕ) (i : ℤ) : ℕ :=
  if n = 0 then 0
  else if (i % (2 * (n : ℤ))).toNat < n then (i % (2 * (n : ℤ))).toNat
  else 2 * n - 1 - (i % (2 * (n : ℤ))).toNat

/-- The kernel offsets `-4..4`. -/
def kernelOffsets : List ℤ := (List.range 9).map (fun t => (t : ℤ) - 4)

/-- The (reflected) input positions read by the separable Gaussian kernel
when producing output cell `(i, j)` of an `H × W` grid. -/
def windowIdx (H W : ℕ) (i j : ℕ) : List (ℕ × ℕ) :=
  kernelOffsets.flatMap (fun a =>
    kernelOffsets.map (fun b => (reflectIdx H ((i : ℤ) + a), reflectIdx W ((j : ℤ) + b))))

/-- One output cell of `scipy.ndimage.gaussian_filter(g, sigma=1)`:
if any input value inside the reflected kernel window is NaN the output is
NaN (IEEE propagation through the convolution, all weights being nonzero);
otherwise it is the doubly weighted sum of the window values. -/
noncomputable def smoothCell (g : Grid) (i j : ℕ) : Cell :=
  if (windowIdx (gridH g) (gridW g) i j).all (fun p => (cellValue g p).isSome) then
    some (∑ t ∈ Finset.range 9, ∑ u ∈ Finset.range 9,
      gweight ((t : ℤ) - 4) * gweight ((u : ℤ) - 4) *
        cellR g (reflectIdx (gridH g) ((i : ℤ) + ((t : ℤ) - 4)),
                 reflectIdx (gridW g) ((j : ℤ) + ((u : ℤ) - 4))))
  else none

/-- `scipy.ndimage.gaussian_filter(g, sigma=1)`: the two separable passes
(axis 0 then axis 1) written as the equivalent single 2-D formula. -/
noncomputable def gaussianFilter (g : Grid) : Grid :=
  (List.range (gridH g)).map (fun i =>
    (List.range (gridW g)).map (fun j => smoothCell g i j))

/-- Chebyshev (`p_norm = inf`) distance between grid cells. -/
def chebDist (p q : ℕ × ℕ) : ℕ := max (Nat.dist p.1 q.1) (Nat.dist p.2 q.2)

/-- All cells of an `H × W` grid in row-major order. -/
def gridCells (H W : ℕ) : List (ℕ × ℕ) :=
  (List.range H).flatMap (fun i => (List.range W).map (fun j => (i, j)))

/-- The cells surviving `skimage`'s `exclude_border = min_distance` step:
at least `d` away from every edge. -/
def innerCells (H W d : ℕ) : List (ℕ × ℕ) :=
  (gridCells H W).filter (fun p => decide (d ≤ p.1 ∧ p.1 + d < H ∧ d ≤ p.2 ∧ p.2 + d < W))

/-- The clipped square window used by `ndi.maximum_filter(image,
size=2*d+1, mode=nearest)` around cell `p`. -/
def maxWindow (H W d : ℕ) (p : ℕ × ℕ) : List (ℕ × ℕ) :=
  (gridCells H W).filter (fun q => decide (chebDist p q ≤ d))

/-- The mask condition of `skimage.feature.peak_local_max`: the cell value
is non-NaN, strictly exceeds the absolute threshold (an absent / NaN
threshold never passes, matching `image > nan` being everywhere false), and
equals the maximum of its clipped window. -/
def isPeak (img : Grid) (d : ℕ) (thr : Option ℝ) (p : ℕ × ℕ) : Prop :=
  ∃ v t, cellValue img p = some v ∧ thr = some t ∧ t < v ∧
    ∀ q ∈ maxWindow (gridH img) (gridW img) d p, ∀ u, cellValue img q = some u → u ≤ v

open Classical in
/-- Candidate peaks in row-major order (mask cells that survive border
exclusion). -/
noncomputable def peakCandidates (img : Grid) (d : ℕ) (thr : Option ℝ) : List (ℕ × ℕ) :=
  (innerCells (gridH img) (gridW img) d).filter (fun p => decide (isPeak img d thr p))

open Classical in
/-- Stable descending insertion by smoothed value: ties keep the earlier
(row-major) candidate first, matching `np.argsort(-intensities,
kind=stable)`. -/
noncomputable def insertDesc (img : Grid) (p : ℕ × ℕ) : List (ℕ × ℕ) → List (ℕ × ℕ)
  | [] => [p]
  | q :: qs => if cellR img p < cellR img q then q :: insertDesc img p qs else p :: q :: qs

/-- Sort candidates by descending smoothed value (stable). -/
noncomputable def sortDesc (img : Grid) (l : List (ℕ × ℕ)) : List (ℕ × ℕ) :=
  l.foldr (fun p acc => insertDesc img p acc) []

/-- `skimage...ensure_spacing(coords, spacing=d, p_norm=inf)`: greedily
accept candidates in order, rejecting any candidate strictly closer than
`d` (in Chebyshev distance) to an already accepted peak. -/
def ensureSpacing (d : ℕ) (l : List (ℕ × ℕ)) : List (ℕ × ℕ) :=
  l.foldl (fun acc c => if acc.all (fun p => decide (d ≤ chebDist p c)) then acc ++ [c] else acc) []

/-- `skimage.feature.peak_local_max(img, min_distance=d, threshold_abs=thr)`
with the library's default remaining arguments. -/
noncomputable def peakLocalMax (img : Grid) (d : ℕ) (thr : Option ℝ) : List (ℕ × ℕ) :=
  ensureSpacing d (sortDesc img (peakCandidates img d thr))

/-- `np.interp` of the integer query `i` against `xp = arange(fp.length)`:
direct lookup, clamped above (and `0` junk on an empty table, where the
Python call would raise). -/
def npInterpNat (fp : List ℝ) (i : ℕ) : ℝ := fp.getD i (fp.getLastD 0)

/-- The dictionary returned by `detect_nv_centers` (both variants). -/
structure DetectionResult where
  coordinates : List (ℕ × ℕ)
  x_positions : List ℝ
  y_positions : List ℝ
  intensities : List Cell
  processed_image : Grid
  threshold : Option ℝ

/-- The threshold computed by the guarded variant (`src/gui.py`, lines
36-51): NaN-safe mean/std with a fallback to `0`, overridden by
`min_peak_height` when that is provided. -/
noncomputable def guiThreshold (c : Grid) (tf : ℝ) (mph : Option ℝ) : ℝ :=
  match mph with
  | some h => h
  | none =>
    match nanmean c, nanstd c with
    | some m, some s => m + tf * s
    | _, _ => 0 + tf * 0

/-- The threshold computed by the strict variant (`src/main.py`, lines
22-28): plain `np.mean` / `np.std` (NaN when the grid has any NaN or is
empty), overridden by `min_peak_height` when provided. -/
noncomputable def mainThreshold (c : Grid) (tf : ℝ) (mph : Option ℝ) : Option ℝ :=
  match mph with
  | some h => some h
  | none =>
    match npMean c, npStd c with
    | some m, some s => some (m + tf * s)
    | _, _ => none

/-- `np.any(smoothed > threshold)`: some non-NaN cell strictly exceeds the
threshold. -/
def anyGt (g : Grid) (t : ℝ) : Prop := ∃ p v, cellValue g p = some v ∧ t < v

open Classical in
/-- The `coordinates` local of the guarded variant (`src/gui.py`, lines
56-61): empty under the short-circuit guard, otherwise `peak_local_max`. -/
noncomputable def guiCoords (c : Grid) (tf : ℝ) (d : ℕ) (mph : Option ℝ) : List (ℕ × ℕ) :=
  if guiThreshold c tf mph ≤ 0 ∨ ¬ anyGt (gaussianFilter c) (guiThreshold c tf mph) then []
  else peakLocalMax (gaussianFilter c) d (some (guiThreshold c tf mph))

open Classical in
/-- `detect_nv_centers` from `src/gui.py` (the guarded variant), lines
16-92. -/
noncomputable def detectGui (c : Grid) (xs ys : List ℝ) (tf : ℝ) (d : ℕ)
    (mph : Option ℝ) : DetectionResult :=
  if gsize c = 0 ∨ allNaN c = true then
    ⟨[], [], [], [], c, some 0⟩
  else if guiCoords c tf d mph = [] then
    ⟨[], [], [], [], gaussianFilter c, some (guiThreshold c tf mph)⟩
  else
    ⟨guiCoords c tf d mph,
      (guiCoords c tf d mph).map (fun p => npInterpNat xs p.2),
      (guiCoords c tf d mph).map (fun p => npInterpNat ys p.1),
      (guiCoords c tf d mph).map (fun p => cellValue c p),
      gaussianFilter c, some (guiThreshold c tf mph)⟩

/-- `detect_nv_centers` from `src/main.py` (the strict variant), lines
15-54. -/
noncomputable def detectMain (c : Grid) (xs ys : List ℝ) (tf : ℝ) (d : ℕ)
    (mph : Option ℝ) : DetectionResult :=
  ⟨peakLocalMax (gaussianFilter c) d (mainThreshold c tf mph),
    (peakLocalMax (gaussianFilter c) d (mainThreshold c tf mph)).map
      (fun p => npInterpNat xs p.2),
    (peakLocalMax (gaussianFilter c) d (mainThreshold c tf mph)).map
      (fun p => npInterpNat ys p.1),
    (peakLocalMax (gaussianFilter c) d (mainThreshold c tf mph)).map
      (fun p => cellValue c p),
    gaussianFilter c, mainThreshold c tf mph⟩

/-- The threshold formula as worded by the specification: if
`minPeakHeight` is provided it is the threshold; otherwise
`mean + thresholdFactor * std` over the non-missing values only, with both
statistics replaced by `0` when the non-missing set is empty (the only way
either statistic can be NaN). -/
noncomputable def specThreshold (c : Grid) (tf : ℝ) (mph : Option ℝ) : ℝ :=
  match mph with
  | some h => h
  | none =>
      (if (validVals c).length = 0 then 0 else (validVals c).sum / (validVals c).length)
    + tf * (if (validVals c).length = 0 then 0
        else Real.sqrt ((((validVals c).map
          (fun x => (x - (validVals c).sum / (validVals c).length) ^ 2)).sum) / (validVals c).length))

/-- The 5×5 scenario grid of §8: all zeros except value 100 at `(2, 2)`. -/
def grid5 : Grid :=
  [[some 0, some 0, some 0, some 0, some 0],
   [some 0, some 0, some 0, some 0, some 0],
   [some 0, some 0, some 100, some 0, some 0],
   [some 0, some 0, some 0, some 0, some 0],
   [some 0, some 0, some 0, some 0, some 0]]

/-- The axis steps `[0, 1, 2, 3, 4]` of the 5×5 scenario. -/
def steps5 : List ℝ := [0, 1, 2, 3, 4]

/-! ### Helper lemmas -/

lemma ensureSpacing_foldl_pairwise (d : ℕ) :
    ∀ (l acc : List (ℕ × ℕ)), List.Pairwise (fun p q => d ≤ chebDist p q) acc →
      List.Pairwise (fun p q => d ≤ chebDist p q)
        (l.foldl (fun acc c =>
          if acc.all (fun p => decide (d ≤ chebDist p c)) then acc ++ [c] else acc) acc)
  | [], _, h => h
  | c :: l, acc, h => by
    rw [List.foldl_cons]
    apply ensureSpacing_foldl_pairwise d l
    by_cases hc : acc.all (fun p => decide (d ≤ chebDist p c)) = true
    · rw [if_pos hc]
      refine List.pairwise_append.mpr ⟨h, List.pairwise_singleton _ _, ?_⟩
      intro p hp q hq
      rw [List.mem_singleton] at hq
      subst hq
      simpa using List.all_eq_true.mp hc p hp
    · rw [Bool.not_eq_true] at hc
      rw [hc]
      simpa using h

/-- Any output of the spacing filter is Chebyshev-separated by at least `d`. -/
lemma ensureSpacing_pairwise (d : ℕ) (l : List (ℕ × ℕ)) :
    List.Pairwise (fun p q => d ≤ chebDist p q) (ensureSpacing d l) :=
  ensureSpacing_foldl_pairwise d l [] List.Pairwise.nil

/-- Every output of `peak_local_max` is Chebyshev-separated by at least the
requested spacing. -/
lemma peakLocalMax_pairwise (img : Grid) (d : ℕ) (thr : Option ℝ) :
    List.Pairwise (fun p q => d ≤ chebDist p q) (peakLocalMax img d thr) :=
  ensureSpacing_pairwise d _

lemma gnorm_pos : 0 < gnorm := by
  unfold gnorm
  refine Finset.sum_pos (fun i _ => Real.exp_pos _) ?_
  exact Finset.nonempty_range_iff.mpr (by norm_num)

lemma gweight_sum : ∑ t ∈ Finset.range 9, gweight ((t : ℤ) - 4) = 1 := by
  unfold gweight
  rw [← Finset.sum_div]
  have h : (∑ t ∈ Finset.range 9, gw ((t : ℤ) - 4)) = gnorm := rfl
  rw [h]
  exact div_self (ne_of_gt gnorm_pos)

lemma reflectIdx_one (z : ℤ) : reflectIdx 1 z = 0 := by
  unfold reflectIdx
  rw [if_neg one_ne_zero]
  have h : z % (2 * ((1 : ℕ) : ℤ)) = 0 ∨ z % (2 * ((1 : ℕ) : ℤ)) = 1 := by
    push_cast
    omega
  rcases h with h | h <;> rw [h] <;> norm_num

lemma cellR_one (c : ℝ) : cellR [[some c]] (0, 0) = c := rfl

/-- Smoothing a `1 × 1` grid is the identity: the kernel weights sum to `1`. -/
lemma gaussianFilter_one (c : ℝ) : gaussianFilter [[some c]] = [[some c]] := by
  have hH : gridH [[some c]] = 1 := rfl
  have hW : gridW [[some c]] = 1 := rfl
  have hr : List.range 1 = [0] := rfl
  rw [gaussianFilter, hH, hW, hr, List.map_cons, List.map_nil, List.map_cons,
    List.map_nil]
  rw [smoothCell, hH, hW]
  rw [if_pos (by rfl)]
  have hterm : ∀ t u : ℕ,
      cellR [[some c]] (reflectIdx 1 (((0 : ℕ) : ℤ) + ((t : ℤ) - 4)),
        reflectIdx 1 (((0 : ℕ) : ℤ) + ((u : ℤ) - 4))) = c := fun t u => by
    rw [reflectIdx_one, reflectIdx_one]
    exact cellR_one c
  simp only [hterm]
  have h1 : (∑ t ∈ Finset.range 9, gweight ((t : ℤ) - 4)) *
      ((∑ u ∈ Finset.range 9, gweight ((u : ℤ) - 4)) * c)
      = ∑ t ∈ Finset.range 9, ∑ u ∈ Finset.range 9,
          gweight ((t : ℤ) - 4) * gweight ((u : ℤ) - 4) * c := by
    rw [Finset.sum_mul]
    refine Finset.sum_congr rfl fun t _ => ?_
    rw [Finset.sum_mul, Finset.mul_sum]
    refine Finset.sum_congr rfl fun u _ => ?_
    ring
  rw [← h1, gweight_sum]
  norm_num

lemma length_filterMap_id_of_all_isSome :
    ∀ l : List Cell, l.all Option.isSome = true → (l.filterMap id).length = l.length
  | [], _ => rfl
  | x :: l, h => by
    rw [List.all_cons, Bool.and_eq_true] at h
    cases x with
    | none => simp at h
    | some v =>
      have ih := length_filterMap_id_of_all_isSome l h.2
      simp [ih]

lemma gsize_eq_flatten_length (g : Grid) : gsize g = g.flatten.length := by
  rw [gsize, List.length_flatten]

lemma allNaN_eq_flatten_all (g : Grid) :
    allNaN g = g.flatten.all (fun v => v.isNone) := by
  rw [allNaN, List.all_flatten]

lemma peakLocalMax_of_innerCells_nil (img : Grid) (d : ℕ) (thr : Option ℝ)
    (h : innerCells (gridH img) (gridW img) d = []) : peakLocalMax img d thr = [] := by
  rw [peakLocalMax, peakCandidates, h, List.filter_nil]
  rfl

lemma gridH_gaussian (g : Grid) : gridH (gaussianFilter g) = gridH g := by
  rw [gaussianFilter, gridH, List.length_map, List.length_range]

lemma gridW_gaussian (g : Grid) : gridW (gaussianFilter g) = gridW g := by
  rw [gaussianFilter]
  cases g with
  | nil => rfl
  | cons r g =>
    have hh : gridH (r :: g) = g.length + 1 := rfl
    rw [hh, List.range_succ_eq_map, List.map_cons]
    show ((List.range (gridW (r :: g))).map (fun j => smoothCell (r :: g) 0 j)).length
      = gridW (r :: g)
    rw [List.length_map, List.length_range]

lemma grid5_nondegenerate : ¬ (gsize grid5 = 0 ∨ allNaN grid5 = true) := by decide

lemma guiCoords_grid5 : guiCoords grid5 2 5 none = [] := by
  rw [guiCoords]
  by_cases h : guiThreshold grid5 2 none ≤ 0 ∨
      ¬ anyGt (gaussianFilter grid5) (guiThreshold grid5 2 none)
  · rw [if_pos h]
  · rw [if_neg h]
    apply peakLocalMax_of_innerCells_nil
    rw [gridH_gaussian, gridW_gaussian]
    have h5 : gridH grid5 = 5 := rfl
    have w5 : gridW grid5 = 5 := rfl
    rw [h5, w5]
    decide

lemma detectGui_grid5 :
    detectGui grid5 steps5 steps5 2 5 none
      = ⟨[], [], [], [], gaussianFilter grid5, some (guiThreshold grid5 2 none)⟩ := by
  rw [detectGui, if_neg grid5_nondegenerate, if_pos guiCoords_grid5]

lemma validVals_length_eq (g : Grid) (h : g.flatten.all Option.isSome = true) :
    (validVals g).length = g.flatten.length :=
  length_filterMap_id_of_all_isSome _ h

lemma npMean_eq_nanmean (g : Grid) (hne : g.flatten.length ≠ 0)
    (h : g.flatten.all Option.isSome = true) : npMean g = nanmean g := by
  have hv : ¬ ((validVals g).length = 0) := by
    rw [validVals_length_eq g h]
    exact hne
  rw [npMean, nanmean, if_pos ⟨hne, h⟩, if_neg hv, validVals_length_eq g h]

lemma npStd_eq_nanstd (g : Grid) (hne : g.flatten.length ≠ 0)
    (h : g.flatten.all Option.isSome = true) : npStd g = nanstd g := by
  have hv : ¬ ((validVals g).length = 0) := by
    rw [validVals_length_eq g h]
    exact hne
  rw [npStd, nanstd, if_pos ⟨hne, h⟩, if_neg hv, validVals_length_eq g h]

lemma mainThreshold_eq_gui (g : Grid) (tf : ℝ) (mph : Option ℝ)
    (hne : g.flatten.length ≠ 0) (h : g.flatten.all Option.isSome = true) :
    mainThreshold g tf mph = some (guiThreshold g tf mph) := by
  cases mph with
  | some h0 => rfl
  | none =>
    have hv : ¬ ((validVals g).length = 0) := by
      rw [validVals_length_eq g h]
      exact hne
    rw [mainThreshold, guiThreshold, npMean_eq_nanmean g hne h, npStd_eq_nanstd g hne h,
      nanmean, nanstd, if_neg hv, if_neg hv]

lemma nondegenerate_of_isSome (g : Grid) (hne : g.flatten.length ≠ 0)
    (h : g.flatten.all Option.isSome = true) : ¬ (gsize g = 0 ∨ allNaN g = true) := by
  intro hc
  rcases hc with hc | hc
  · rw [gsize_eq_flatten_length] at hc
    exact hne hc
  · rw [allNaN_eq_flatten_all] at hc
    obtain ⟨x, l, hx⟩ : ∃ x l, g.flatten = x :: l := by
      cases hf : g.flatten with
      | nil => rw [hf] at hne; simp at hne
      | cons a l => exact ⟨a, l, rfl⟩
    rw [hx, List.all_cons, Bool.and_eq_true] at hc h
    cases x with
    | none => simp at h
    | some v => simp at hc

/-- The all-NaN 3×3 scenario grid of §8. -/
def allNaN3 : Grid := [[none, none, none], [none, none, none], [none, none, none]]

/-! ### Claim theorems -/

/-- C1: for every dataset whose counts grid is empty (zero elements) or
consists entirely of missing/NaN values, the guarded detector returns
(without raising: the embedding is a total function) a result in which
all four sequences are empty, `processed_image` is the input counts grid
unchanged, and `threshold` is `0`. -/
theorem detect_degenerate_returns_empty (c : Grid) (xs ys : List ℝ) (tf : ℝ)
    (d : ℕ) (mph : Option ℝ) (h : gsize c = 0 ∨ allNaN c = true) :
    detectGui c xs ys tf d mph = ⟨[], [], [], [], c, some 0⟩ := by
  rw [detectGui, if_pos h]

/-- Witness for C1 at the all-NaN 3×3 grid of the spec's concrete scenario. -/
theorem detect_degenerate_returns_empty_witness :
    (gsize allNaN3 = 0 ∨ allNaN allNaN3 = true) ∧
    detectGui allNaN3 [0, 1, 2] [0, 1, 2] 2 5 none = ⟨[], [], [], [], allNaN3, some 0⟩ :=
  ⟨by decide, detect_degenerate_returns_empty allNaN3 [0, 1, 2] [0, 1, 2] 2 5 none (by decide)⟩

/-- C2 (counterexample): on the 5×5 grid that is all zeros except value 100
at `(2,2)`, with `xSteps = ySteps = [0,1,2,3,4]` and the default parameters
(`thresholdFactor = 2`, `minDistance = 5`, no `minPeakHeight`), the guarded
detector does NOT return the single peak `(2,2)` claimed by the spec: its
coordinate list is empty (the threshold `4 + 2·√384 ≈ 43.2` exceeds every
smoothed value, and the default `min_distance = 5` border exclusion of
`peak_local_max` covers the whole 5×5 grid). -/
theorem detect_grid5_not_single_peak :
    ((detectGui grid5 steps5 steps5 2 5 none).coordinates = [(2, 2)] ∧
       (detectGui grid5 steps5 steps5 2 5 none).intensities = [some 100] ∧
       (detectGui grid5 steps5 steps5 2 5 none).x_positions = [2] ∧
       (detectGui grid5 steps5 steps5 2 5 none).y_positions = [2]) = False := by
  rw [detectGui_grid5]
  refine eq_false ?_
  intro hc
  exact List.cons_ne_nil _ _ hc.1.symm

lemma mainCoords_grid5 :
    peakLocalMax (gaussianFilter grid5) 5 (mainThreshold grid5 2 none) = [] := by
  apply peakLocalMax_of_innerCells_nil
  rw [gridH_gaussian, gridW_gaussian]
  decide

/-- C2 (amended): on the 5×5 single-spike scenario both detector variants
return an empty result: all four output sequences are empty. -/
theorem detect_grid5_empty :
    ((detectGui grid5 steps5 steps5 2 5 none).coordinates = [] ∧
      (detectGui grid5 steps5 steps5 2 5 none).x_positions = [] ∧
      (detectGui grid5 steps5 steps5 2 5 none).y_positions = [] ∧
      (detectGui grid5 steps5 steps5 2 5 none).intensities = []) ∧
    ((detectMain grid5 steps5 steps5 2 5 none).coordinates = [] ∧
      (detectMain grid5 steps5 steps5 2 5 none).x_positions = [] ∧
      (detectMain grid5 steps5 steps5 2 5 none).y_positions = [] ∧
      (detectMain grid5 steps5 steps5 2 5 none).intensities = []) := by
  constructor
  · rw [detectGui_grid5]
    exact ⟨rfl, rfl, rfl, rfl⟩
  · rw [detectMain, mainCoords_grid5]
    exact ⟨rfl, rfl, rfl, rfl⟩

/-- C3: for every non-degenerate dataset the returned threshold is exactly
`minPeakHeight` when that is provided, and otherwise
`mean + thresholdFactor * std` computed over the non-missing values only,
with both statistics replaced by `0` when the non-missing set is empty
(the only case in which either statistic is NaN) — the formula
`specThreshold`, stated in the specification's words. -/
theorem detect_threshold_formula (c : Grid) (xs ys : List ℝ) (tf : ℝ) (d : ℕ)
    (mph : Option ℝ) (h : ¬ (gsize c = 0 ∨ allNaN c = true)) :
    (detectGui c xs ys tf d mph).threshold = some (specThreshold c tf mph) := by
  have hthr : guiThreshold c tf mph = specThreshold c tf mph := by
    cases mph with
    | some h0 => rfl
    | none =>
      rw [guiThreshold, specThreshold]
      by_cases hv : (validVals c).length = 0
      · rw [nanmean, nanstd, if_pos hv, if_pos hv, if_pos hv, if_pos hv]
      · rw [nanmean, nanstd, if_neg hv, if_neg hv, if_neg hv, if_neg hv]
  rw [detectGui, if_neg h]
  by_cases hco : guiCoords c tf d mph = []
  · rw [if_pos hco, hthr]
  · rw [if_neg hco, hthr]

/-- Witness for C3 at a non-degenerate 1×1 grid. -/
theorem detect_threshold_formula_witness :
    ¬ (gsize [[some (1 : ℝ)]] = 0 ∨ allNaN [[some (1 : ℝ)]] = true) ∧
    (detectGui [[some (1 : ℝ)]] [0] [0] 2 5 none).threshold
      = some (specThreshold [[some (1 : ℝ)]] 2 none) :=
  ⟨by decide, detect_threshold_formula [[some (1 : ℝ)]] [0] [0] 2 5 none (by decide)⟩

/-- C4: for every non-degenerate dataset in which the computed threshold is
nonpositive or no smoothed value exceeds it, the guarded detector returns
the empty-result shape with `processed_image` the smoothed grid (not the
raw counts) and `threshold` the computed value (not `0`). -/
theorem detect_guard_empty (c : Grid) (xs ys : List ℝ) (tf : ℝ) (d : ℕ)
    (mph : Option ℝ) (hnd : ¬ (gsize c = 0 ∨ allNaN c = true))
    (hg : guiThreshold c tf mph ≤ 0 ∨
      ¬ anyGt (gaussianFilter c) (guiThreshold c tf mph)) :
    detectGui c xs ys tf d mph
      = ⟨[], [], [], [], gaussianFilter c, some (guiThreshold c tf mph)⟩ := by
  have hco : guiCoords c tf d mph = [] := by
    rw [guiCoords, if_pos hg]
  rw [detectGui, if_neg hnd, if_pos hco]

/-- Witness for C4: a non-degenerate 1×1 grid with an explicit zero
`min_peak_height`, so the computed threshold is `0 ≤ 0`. -/
theorem detect_guard_empty_witness :
    ¬ (gsize [[some (1 : ℝ)]] = 0 ∨ allNaN [[some (1 : ℝ)]] = true) ∧
    guiThreshold [[some (1 : ℝ)]] 2 (some 0) ≤ 0 ∧
    detectGui [[some (1 : ℝ)]] [0] [0] 2 5 (some 0)
      = ⟨[], [], [], [], gaussianFilter [[some (1 : ℝ)]],
          some (guiThreshold [[some (1 : ℝ)]] 2 (some 0))⟩ :=
  ⟨by decide, le_of_eq rfl,
    detect_guard_empty [[some (1 : ℝ)]] [0] [0] 2 5 (some 0) (by decide)
      (Or.inl (le_of_eq rfl))⟩

/-- C10: for every non-degenerate dataset, calling the guarded detector
with an explicit `min_peak_height ≤ 0` returns an empty result (all four
sequences empty) no matter how large the raw or smoothed values are: the
`threshold <= 0` short circuit fires on the overridden threshold. -/
theorem detect_nonpositive_override_empty (c : Grid) (xs ys : List ℝ) (tf : ℝ)
    (d : ℕ) (h0 : ℝ) (hnd : ¬ (gsize c = 0 ∨ allNaN c = true)) (hh : h0 ≤ 0) :
    (detectGui c xs ys tf d (some h0)).coordinates = [] ∧
    (detectGui c xs ys tf d (some h0)).x_positions = [] ∧
    (detectGui c xs ys tf d (some h0)).y_positions = [] ∧
    (detectGui c xs ys tf d (some h0)).intensities = [] := by
  have hco : guiCoords c tf d (some h0) = [] := by
    rw [guiCoords]
    exact if_pos (Or.inl hh)
  rw [detectGui, if_neg hnd, if_pos hco]
  exact ⟨rfl, rfl, rfl, rfl⟩

/-- Witness for C10: a 1×1 grid with a huge count and `min_peak_height = 0`. -/
theorem detect_nonpositive_override_empty_witness :
    ¬ (gsize [[some (1000000 : ℝ)]] = 0 ∨ allNaN [[some (1000000 : ℝ)]] = true) ∧
    (0 : ℝ) ≤ 0 ∧
    (detectGui [[some (1000000 : ℝ)]] [0] [0] 2 5 (some 0)).coordinates = [] :=
  ⟨by decide, le_refl 0,
    (detect_nonpositive_override_empty [[some (1000000 : ℝ)]] [0] [0] 2 5 0
      (by decide) (le_refl 0)).1⟩

/-- C6: no two coordinates returned by the guarded detector are strictly
closer than `minDistance` to each other: every pair of returned peaks has
Chebyshev distance at least `minDistance` (and hence Euclidean distance at
least `minDistance` too, the Euclidean distance dominating the Chebyshev
one). The boundary case (exactly `minDistance`) is retained, matching the
`skimage` spacing filter which rejects only points strictly closer than the
requested spacing. -/
theorem detect_min_distance_separation (c : Grid) (xs ys : List ℝ) (tf : ℝ)
    (d : ℕ) (mph : Option ℝ) (_hd : 0 < d) :
    List.Pairwise (fun p q => d ≤ chebDist p q)
      (detectGui c xs ys tf d mph).coordinates := by
  rw [detectGui]
  split_ifs with h1 h2
  · exact List.Pairwise.nil
  · exact List.Pairwise.nil
  · show List.Pairwise _ (guiCoords c tf d mph)
    rw [guiCoords]
    split_ifs with h3
    · exact List.Pairwise.nil
    · exact peakLocalMax_pairwise _ _ _

/-- Witness for C6 at a concrete dataset and `minDistance = 1`. -/
theorem detect_min_distance_separation_witness :
    0 < 1 ∧
    List.Pairwise (fun p q => 1 ≤ chebDist p q)
      (detectGui [[some (1 : ℝ)]] [0] [0] 2 1 none).coordinates :=
  ⟨by decide,
    detect_min_distance_separation [[some (1 : ℝ)]] [0] [0] 2 1 none (by decide)⟩

/-- C7: for both pipeline variants the intensity sequence is exactly the
raw counts values looked up at the returned coordinates (never the smoothed
values): `intensities = coordinates.map (cellValue counts)`, so
`intensities[i] = counts[row_i, col_i]` at every index `i`. -/
theorem detect_intensities_raw (c : Grid) (xs ys : List ℝ) (tf : ℝ) (d : ℕ)
    (mph : Option ℝ) :
    (detectGui c xs ys tf d mph).intensities
      = (detectGui c xs ys tf d mph).coordinates.map (fun p => cellValue c p) ∧
    (detectMain c xs ys tf d mph).intensities
      = (detectMain c xs ys tf d mph).coordinates.map (fun p => cellValue c p) := by
  constructor
  · rw [detectGui]
    split_ifs <;> rfl
  · rfl

/-- C8: for every dataset and every parameter choice, both variants return
a result whose four parallel sequences have equal lengths (including the
all-empty case). -/
theorem detect_parallel_lengths (c : Grid) (xs ys : List ℝ) (tf : ℝ) (d : ℕ)
    (mph : Option ℝ) :
    ((detectGui c xs ys tf d mph).coordinates.length
        = (detectGui c xs ys tf d mph).x_positions.length ∧
      (detectGui c xs ys tf d mph).x_positions.length
        = (detectGui c xs ys tf d mph).y_positions.length ∧
      (detectGui c xs ys tf d mph).y_positions.length
        = (detectGui c xs ys tf d mph).intensities.length) ∧
    ((detectMain c xs ys tf d mph).coordinates.length
        = (detectMain c xs ys tf d mph).x_positions.length ∧
      (detectMain c xs ys tf d mph).x_positions.length
        = (detectMain c xs ys tf d mph).y_positions.length ∧
      (detectMain c xs ys tf d mph).y_positions.length
        = (detectMain c xs ys tf d mph).intensities.length) := by
  constructor
  · rw [detectGui]
    split_ifs <;> exact ⟨by simp, by simp, by simp⟩
  · exact ⟨by simp [detectMain], by simp [detectMain], by simp [detectMain]⟩

lemma gaussianFilter_nan_pair :
    gaussianFilter [[none, some (5 : ℝ)]] = [[none, none]] := rfl

/-- C5 (counterexample): the 1×2 grid `[NaN, 5]` is non-degenerate (it has
a non-missing value) and contains a missing value, yet its smoothed image
is entirely missing: with kernel radius 4 and reflected boundary every
cell's window touches the NaN, which propagates through the convolution. -/
theorem smoothing_all_missing_counterexample :
    allNaN [[none, some (5 : ℝ)]] = false ∧
    ([[none, some (5 : ℝ)]] : Grid).flatten.any (fun v => v.isNone) = true ∧
    allNaN (gaussianFilter [[none, some (5 : ℝ)]]) = true := by
  refine ⟨by decide, by decide, ?_⟩
  rw [gaussianFilter_nan_pair]
  decide

/-- C5 (amended): smoothing always preserves the grid shape (same row and
column counts), but missing values propagate to every cell whose reflected
kernel window touches one, so on grids in which every cell lies within the
kernel radius of a missing value — e.g. `[[NaN, 5]]` — the smoothed image
is entirely missing rather than a usable numeric grid. -/
theorem smoothing_shape_and_nan_propagation :
    (∀ g : Grid,
      gridH (gaussianFilter g) = gridH g ∧ gridW (gaussianFilter g) = gridW g) ∧
    gaussianFilter [[none, some (5 : ℝ)]] = [[none, none]] :=
  ⟨fun g => ⟨gridH_gaussian g, gridW_gaussian g⟩, gaussianFilter_nan_pair⟩

/-- C9: on any dataset whose counts grid is non-empty and NaN-free, when
the computed threshold is strictly positive and at least one smoothed value
exceeds it, the guarded variant (`gui.py`) and the strict variant
(`main.py`), called with identical parameters, return equal results in
every field. -/
theorem detect_variants_agree (c : Grid) (xs ys : List ℝ) (tf : ℝ) (d : ℕ)
    (mph : Option ℝ) (hne : gsize c ≠ 0)
    (hnn : c.flatten.all Option.isSome = true)
    (hpos : 0 < guiThreshold c tf mph)
    (hex : anyGt (gaussianFilter c) (guiThreshold c tf mph)) :
    detectGui c xs ys tf d mph = detectMain c xs ys tf d mph := by
  have hne' : c.flatten.length ≠ 0 := by
    rw [← gsize_eq_flatten_length]
    exact hne
  have hnd := nondegenerate_of_isSome c hne' hnn
  have hthr := mainThreshold_eq_gui c tf mph hne' hnn
  have hguard : ¬ (guiThreshold c tf mph ≤ 0 ∨
      ¬ anyGt (gaussianFilter c) (guiThreshold c tf mph)) := by
    rintro (h | h)
    · exact absurd hpos (not_lt.mpr h)
    · exact h hex
  have hco : guiCoords c tf d mph
      = peakLocalMax (gaussianFilter c) d (some (guiThreshold c tf mph)) := by
    rw [guiCoords, if_neg hguard]
  rw [detectGui, if_neg hnd]
  by_cases hempty : guiCoords c tf d mph = []
  · rw [if_pos hempty]
    have hml : peakLocalMax (gaussianFilter c) d (mainThreshold c tf mph) = [] := by
      rw [hthr, ← hco]
      exact hempty
    rw [detectMain, hml, hthr]
    rfl
  · rw [if_neg hempty, detectMain, hthr, hco]

/-- Witness for C9 at a NaN-free 1×1 grid with an explicit positive
`min_peak_height` below the (unchanged) smoothed value. -/
theorem detect_variants_agree_witness :
    gsize [[some (2 : ℝ)]] ≠ 0 ∧
    ([[some (2 : ℝ)]] : Grid).flatten.all Option.isSome = true ∧
    0 < guiThreshold [[some (2 : ℝ)]] 2 (some 1) ∧
    anyGt (gaussianFilter [[some (2 : ℝ)]]) (guiThreshold [[some (2 : ℝ)]] 2 (some 1)) ∧
    detectGui [[some (2 : ℝ)]] [0] [0] 2 5 (some 1)
      = detectMain [[some (2 : ℝ)]] [0] [0] 2 5 (some 1) := by
  have hpos : (0 : ℝ) < guiThreshold [[some (2 : ℝ)]] 2 (some 1) := by
    show (0 : ℝ) < 1
    norm_num
  have hex : anyGt (gaussianFilter [[some (2 : ℝ)]])
      (guiThreshold [[some (2 : ℝ)]] 2 (some 1)) := by
    refine ⟨(0, 0), 2, ?_, ?_⟩
    · rw [gaussianFilter_one]
      rfl
    · show (1 : ℝ) < 2
      norm_num
  exact ⟨by decide, by decide, hpos, hex,
    detect_variants_agree [[some (2 : ℝ)]] [0] [0] 2 5 (some 1) (by decide) (by decide)
      hpos hex⟩
